import Mathlib

/-!
Verification of the SRX configuration parser (`fwunit/srx/parse.py`).

The development shallowly embeds the parser: XML documents become a tree
type `XElem` with ElementTree-style path search, the IPy collaborator
becomes a CIDR-range type `IP` with a set-of-addresses denotation, and
each Python parsing function becomes an `Option`-valued Lean function
(`none` models a raised exception).
-/

set_option maxHeartbeats 1000000

/-- Concatenation of the images of `f`, mirroring a Python generator that
yields `f a` for each `a` in turn. -/
def listFlat (f : α → List β) : List α → List β
  | [] => []
  | a :: as => f a ++ listFlat f as

/-- Fold over a list with a step that can raise (Python loop whose body may
throw an exception that aborts the whole computation). -/
def optFoldl (f : σ → α → Option σ) : σ → List α → Option σ
  | s, [] => some s
  | s, a :: as =>
    match f s a with
    | none => none
    | some s2 => optFoldl f s2 as

/-- Map over a list with a function that can raise; any failure aborts the
whole traversal (a Python list comprehension over a throwing function). -/
def optMapM (f : α → Option β) : List α → Option (List β)
  | [] => some []
  | a :: as =>
    match f a with
    | none => none
    | some b =>
      match optMapM f as with
      | none => none
      | some bs => some (b :: bs)

/-- An XML element: tag (namespaced tags carry the Clark-notation braces in
the string), optional text, and child elements, as in
`xml.etree.ElementTree`. -/
inductive XElem : Type where
  | mk (tag : String) (text : Option String) (children : List XElem)

/-- The element's tag. -/
def XElem.tag : XElem → String
  | .mk t _ _ => t

/-- The element's text (`Element.text`, `None` when absent). -/
def XElem.text : XElem → Option String
  | .mk _ x _ => x

/-- The element's direct children. -/
def XElem.children : XElem → List XElem
  | .mk _ _ c => c

mutual
/-- The element followed by all of its descendants, in document (preorder)
order: `Element.iter()`. -/
def XElem.preorder : XElem → List XElem
  | .mk t x cs => .mk t x cs :: XElem.preorderList cs

/-- Preorder traversal of a forest of sibling subtrees. -/
def XElem.preorderList : List XElem → List XElem
  | [] => []
  | c :: cs => XElem.preorder c ++ XElem.preorderList cs
end

/-- One step of an ElementTree path: a child tag, the `*` wildcard, or a
`//`-prefixed descendant tag. -/
inductive Step : Type where
  | child (tag : String)
  | childAny
  | desc (tag : String)

/-- Elements selected by a single path step from `e`, in document order.
`desc t` selects proper descendants only, as ElementTree's
`prepare_descendant` does. -/
def applyStep : Step → XElem → List XElem
  | .child t, e => e.children.filter (fun c => c.tag == t)
  | .childAny, e => e.children
  | .desc t, e => (XElem.preorderList e.children).filter (fun c => c.tag == t)

/-- `Element.findall(path)`: all matches of the step list, in the order the
chained ElementTree generators produce them. -/
def XElem.findall : XElem → List Step → List XElem
  | e, [] => [e]
  | e, s :: rest => listFlat (fun c => XElem.findall c rest) (applyStep s e)

/-- `Element.find(path)`: the first match, if any. -/
def XElem.find (e : XElem) (steps : List Step) : Option XElem :=
  (XElem.findall e steps).head?

/-- `Element.findtext(path)` with the default `None`: `none` when no element
matches, and the matching element's text (or `""` when it has no text)
otherwise. -/
def XElem.findtext (e : XElem) (steps : List Step) : Option String :=
  match (XElem.findall e steps).head? with
  | none => none
  | some x => some (x.text.getD "")

/-- Whitespace for the purposes of Python `int()`'s argument stripping. -/
def isSpaceChar (c : Char) : Bool :=
  c == ' ' || c == '\t' || c == '\n' || c == '\r'

/-- Strip leading and trailing whitespace from a character list. -/
def trimChars (l : List Char) : List Char :=
  ((l.dropWhile isSpaceChar).reverse.dropWhile isSpaceChar).reverse

/-- The value of a decimal digit, `none` on any other character. -/
def digitVal? (c : Char) : Option Nat :=
  if c.isDigit then some (c.toNat - 48) else none

/-- Accumulate decimal digits; any non-digit aborts. -/
def parseDigitsAux : List Char → Nat → Option Nat
  | [], acc => some acc
  | c :: cs, acc =>
    match digitVal? c with
    | none => none
    | some d => parseDigitsAux cs (acc * 10 + d)

/-- A non-empty all-digit character list as a number. -/
def parseDigits : List Char → Option Nat
  | [] => none
  | c :: cs => parseDigitsAux (c :: cs) 0

/-- Split a character list on a separator character, Python
`str.split(sep)`: the result is never empty and empty pieces are kept. -/
def splitOnChar (c : Char) : List Char → List (List Char)
  | [] => [[]]
  | a :: as =>
    match splitOnChar c as with
    | [] => [[a]]
    | g :: gs => if a == c then [] :: g :: gs else (a :: g) :: gs

/-- Model of Python `int()` applied to a string: surrounding whitespace and
an optional sign are accepted, anything else non-numeric raises
(digit-group underscores and non-ASCII digits are not modelled). -/
def pyIntChars : List Char → Option Int
  | '+' :: cs => (parseDigits cs).map Int.ofNat
  | '-' :: cs => (parseDigits cs).map (fun n => -(Int.ofNat n : Int))
  | cs => (parseDigits cs).map Int.ofNat

/-- Python `int()` on a string, see `pyIntChars`. -/
def pyInt? (s : String) : Option Int :=
  pyIntChars (trimChars s.data)

/-- Python truthiness of an optional string: `None` and `""` are falsy. -/
def strTruthy : Option String → Bool
  | none => false
  | some s => !s.data.isEmpty

/-- A CIDR block, the value of one IPy `IP(...)` object: a 32-bit base
address and a routing-prefix length. -/
structure IP where
  addr : Nat
  plen : Nat
deriving DecidableEq

/-- The set of IPv4 addresses covered by a CIDR block. -/
def IP.toSet (r : IP) : Set Nat :=
  fun n => n < 2 ^ 32 ∧ n / 2 ^ (32 - r.plen) = r.addr / 2 ^ (32 - r.plen)

/-- The value of an IPy `IPSet`: the CIDR blocks it was built from.  IPy
compares `IPSet`s after normalisation, so value equality is equality of the
denoted address sets. -/
abbrev IPSet := List IP

/-- The set of addresses an `IPSet` denotes. -/
def IPSet.toSet (s : IPSet) : Set Nat :=
  fun n => ∃ r ∈ s, n ∈ IP.toSet r

/-- The whole IPv4 address space, the denotation of `IP("0.0.0.0/0")`. -/
def fullSpace : Set Nat :=
  fun n => n < 2 ^ 32

/-- One octet of a dotted quad (decimal, at most 255). -/
def parseOctet (l : List Char) : Option Nat :=
  match parseDigits l with
  | some n => if n ≤ 255 then some n else none
  | none => none

/-- Dotted-quad parse at a known prefix length; IPy rejects blocks with
non-zero host bits, which the final modulus check mirrors. -/
def parseAddr (a : List Char) (plen : Nat) : Option IP :=
  match splitOnChar '.' a with
  | [o1, o2, o3, o4] =>
    match parseOctet o1, parseOctet o2, parseOctet o3, parseOctet o4 with
    | some n1, some n2, some n3, some n4 =>
      let addr := ((n1 * 256 + n2) * 256 + n3) * 256 + n4
      if addr % 2 ^ (32 - plen) = 0 then some ⟨addr, plen⟩ else none
    | _, _, _, _ => none
  | _ => none

/-- Model of the IPy `IP(...)` constructor restricted to the IPv4 textual
forms the firewall exports contain: `a.b.c.d` (a host, prefix length 32) or
`a.b.c.d/p`.  `none` models the `ValueError` IPy raises on malformed
text. -/
def parseIP (s : String) : Option IP :=
  match splitOnChar '/' s.data with
  | [a] => parseAddr a 32
  | [a, p] =>
    match parseDigits p with
    | some plen => if plen ≤ 32 then parseAddr a plen else none
    | none => none
  | _ => none

/-- One firewall rule, the fields `Policy._from_xml` fills in.  Fields that
Python may leave as `None` (element text that can be absent) are
`Option`-typed. -/
structure Policy where
  name : Option String
  from_zone : Option String
  to_zone : Option String
  enabled : Bool
  sequence : Int
  source_addresses : List (Option String)
  destination_addresses : List (Option String)
  applications : List (Option String)
  action : Option String
deriving DecidableEq

/-- `Policy._parse_address`: the text of the entry's `address-name` child;
raises (outer `none`) when that child is missing. -/
def Policy.parse_address (elt : XElem) : Option (Option String) :=
  match XElem.find elt [Step.child "address-name"] with
  | none => none
  | some addrname => some addrname.text

/-- `Policy._parse_application`: the text of the entry's `application-name`
child; raises when that child is missing. -/
def Policy.parse_application (elt : XElem) : Option (Option String) :=
  match XElem.find elt [Step.child "application-name"] with
  | none => none
  | some appname => some appname.text

/-- `int(pie.find('./policy-sequence-number').text)`: raises when the
element is missing, when its text is `None`, or when the text is not
numeric. -/
def Policy.sequenceOf (pie : XElem) : Option Int :=
  match XElem.find pie [Step.child "policy-sequence-number"] with
  | none => none
  | some e =>
    match e.text with
    | none => none
    | some s => pyInt? s

/-- `Policy._from_xml`: one `policy-information` element to a `Policy`;
`none` models any exception escaping the Python method. -/
def Policy.from_xml (from_zone to_zone : Option String) (pie : XElem) :
    Option Policy := do
  let nameElt ← XElem.find pie [Step.child "policy-name"]
  let stateElt ← XElem.find pie [Step.child "policy-state"]
  let sequence ← Policy.sequenceOf pie
  let source_addresses ← optMapM Policy.parse_address
    (XElem.findall pie [Step.child "source-addresses", Step.childAny])
  let destination_addresses ← optMapM Policy.parse_address
    (XElem.findall pie [Step.child "destination-addresses", Step.childAny])
  let applications ← optMapM Policy.parse_application
    (XElem.findall pie [Step.child "applications", Step.child "application"])
  let actionElt ← XElem.find pie [Step.child "policy-action", Step.child "action-type"]
  pure { name := nameElt.text, from_zone, to_zone,
         enabled := stateElt.text == some "enabled",
         sequence, source_addresses, destination_addresses, applications,
         action := actionElt.text }

/-- The Juniper routing namespace prefix applied to a tag (Clark
notation, as the Python source spells it inline). -/
def ns (tag : String) : String :=
  "\x7bhttp://xml.juniper.net/junos/12.1X44/junos-routing\x7d" ++ tag

/-- One route, the fields `Route._from_xml` fills in.  `interface` and
`is_local` start as `None` and are only assigned inside the entry loop. -/
structure Route where
  destination : IP
  interface : Option String
  is_local : Option Bool
deriving DecidableEq

/-- The body of the `rt-entry` loop in `Route._from_xml`: entries without a
`current-active` descendant leave the state alone; an active entry takes
the first `via` descendant's text as the interface (keeping the old value
when there is none) and recomputes `is_local` from the absence of `to`
descendants. -/
def Route.entryStep (st : Option String × Option Bool) (entry : XElem) :
    Option String × Option Bool :=
  match XElem.findall entry [Step.desc (ns "current-active")] with
  | [] => st
  | _ :: _ =>
    (match XElem.findall entry [Step.desc (ns "via")] with
     | [] => st.1
     | v :: _ => v.text,
     some (XElem.findall entry [Step.desc (ns "to")]).isEmpty)

/-- `Route._from_xml`: outer `none` models a raised exception (missing or
malformed `rt-destination`), inner `none` the fall-through return when
`route.interface` is falsy. -/
def Route.from_xml (rt_elt : XElem) : Option (Option Route) :=
  match XElem.find rt_elt [Step.child (ns "rt-destination")] with
  | none => none
  | some destElt =>
    match destElt.text with
    | none => none
    | some destText =>
      match parseIP destText with
      | none => none
      | some destination =>
        let st := (XElem.findall rt_elt [Step.child (ns "rt-entry")]).foldl
          Route.entryStep (none, none)
        if strTruthy st.1 then some (some ⟨destination, st.1, st.2⟩) else some none

/-- A zone's address book: a Python dict from entry name (which is itself
`None` when an entry has no `name` child) to `IPSet` value. -/
abbrev AddrMap := List (Option String × IPSet)

/-- Dict lookup: the most recent binding of the key, `none` modelling a
`KeyError`. -/
def lookupKey : AddrMap → Option String → Option IPSet
  | [], _ => none
  | (k, v) :: rest, key => if k = key then some v else lookupKey rest key

/-- Dict assignment `d[k] = v`: the new binding shadows any older one. -/
def insertKey (m : AddrMap) (k : Option String) (v : IPSet) : AddrMap :=
  (k, v) :: m

/-- The CIDR block behind `IP('0.0.0.0/0')`. -/
def anyIP : IP := ⟨0, 0⟩

/-- The built-in `'any'` entry value, `IPSet([IP('0.0.0.0/0')])`. -/
def anyIPSet : IPSet := [anyIP]

/-- The address book `Zone.__init__` starts from. -/
def zoneInitAddresses : AddrMap := [(some "any", anyIPSet)]

/-- One security zone, the fields `Zone.__init__`/`Zone._from_xml` fill
in. -/
structure Zone where
  name : Option String
  interfaces : List (Option String)
  addresses : AddrMap
deriving DecidableEq

/-- The member loop of an address-set entry: start from `IPSet()` and add
each referenced member's current value, raising (`none`) on a name not
present in the book. -/
def resolveSetMembers (addresses : AddrMap) : List XElem → IPSet → Option IPSet
  | [], acc => some acc
  | setaddr :: rest, acc =>
    match lookupKey addresses (XElem.findtext setaddr [Step.child "name"]) with
    | none => none
    | some v => resolveSetMembers addresses rest (acc ++ v)

/-- The value of one address-book child: a plain `address` parses its
`ip-prefix` text as a one-block set; any other tag is an address-set
resolved against the book built so far. -/
def Zone.resolveEntry (addresses : AddrMap) (addr : XElem) : Option IPSet :=
  if addr.tag = "address" then
    match XElem.findtext addr [Step.child "ip-prefix"] with
    | none => none
    | some t =>
      match parseIP t with
      | none => none
      | some r => some [r]
  else
    resolveSetMembers addresses (XElem.findall addr [Step.child "address"]) []

/-- One iteration of the address-book loop: resolve the child and store the
result under the child's own name. -/
def Zone.processAddr (addresses : AddrMap) (addr : XElem) : Option AddrMap :=
  match Zone.resolveEntry addresses addr with
  | none => none
  | some ip => some (insertKey addresses (XElem.findtext addr [Step.child "name"]) ip)

/-- `Zone._from_xml`: name, interfaces, then the address-book fold.  The
Python code iterates `sze.find('address-book')` directly, so a missing
`address-book` element raises (`none`). -/
def Zone.from_xml (sze : XElem) : Option Zone :=
  match XElem.find sze [Step.child "name"] with
  | none => none
  | some nameElt =>
    match XElem.find sze [Step.child "address-book"] with
    | none => none
    | some ab =>
      match optFoldl Zone.processAddr zoneInitAddresses ab.children with
      | none => none
      | some addresses =>
        some { name := nameElt.text,
               interfaces := (XElem.findall sze [Step.desc "interfaces", Step.child "name"]).map XElem.text,
               addresses }

/-- One iteration of the `security-context` loop in
`Firewall._parse_policies`: read the two zone names (raising when either
element is missing) and append the context's policies in document order. -/
def Firewall.ctxStep (acc : List Policy) (elt : XElem) : Option (List Policy) :=
  match XElem.find elt [Step.child "context-information", Step.child "source-zone-name"] with
  | none => none
  | some fzElt =>
    match XElem.find elt [Step.child "context-information", Step.child "destination-zone-name"] with
    | none => none
    | some tzElt =>
      optFoldl (fun acc2 pol_elt =>
          match Policy.from_xml fzElt.text tzElt.text pol_elt with
          | none => none
          | some policy => some (acc2 ++ [policy]))
        acc (XElem.findall elt [Step.child "policies", Step.child "policy-information"])

/-- `Firewall._parse_policies`: fold the context loop over all
`security-context` descendants of the document root. -/
def Firewall.parse_policies (root : XElem) : Option (List Policy) :=
  optFoldl Firewall.ctxStep [] (XElem.findall root [Step.desc "security-context"])

/-- The inner loop of `Firewall._parse_routes` on the selected table:
parse each `rt` child, keep the routes that were actually returned,
propagate exceptions. -/
def Firewall.tableRoutes (table : XElem) : Option (List Route) :=
  optFoldl (fun acc rt_elt =>
      match Route.from_xml rt_elt with
      | none => none
      | some (some r) => some (acc ++ [r])
      | some none => some acc)
    [] (XElem.findall table [Step.child (ns "rt")])

/-- The table loop of `Firewall._parse_routes`: the first table whose
`table-name` text is `inet.0` is processed and the function returns from
inside the loop; when no table matches the loop falls through to `[]`. -/
def Firewall.routesLoop : List XElem → Option (List Route)
  | [] => some []
  | table :: rest =>
    if XElem.findtext table [Step.child (ns "table-name")] = some "inet.0" then
      Firewall.tableRoutes table
    else
      Firewall.routesLoop rest

/-- `Firewall._parse_routes` on a parsed document root. -/
def Firewall.parse_routes (root : XElem) : Option (List Route) :=
  Firewall.routesLoop (XElem.findall root [Step.desc (ns "route-table")])

/-- `Firewall._parse_zones`: one `Zone` per `security-zone` descendant, in
document order, any zone failure aborting the parse. -/
def Firewall.parse_zones (root : XElem) : Option (List Zone) :=
  optMapM Zone.from_xml (XElem.findall root [Step.desc "security-zone"])

/-- The aggregate the `Firewall` constructor builds. -/
structure Firewall where
  policies : List Policy
  routes : List Route
  zones : List Zone

/-- The `Firewall` constructor on three parsed document roots: all three
extractors must succeed. -/
def Firewall.parse (security_policies_xml route_xml configuration_security_zones_xml : XElem) :
    Option Firewall := do
  let policies ← Firewall.parse_policies security_policies_xml
  let routes ← Firewall.parse_routes route_xml
  let zones ← Firewall.parse_zones configuration_security_zones_xml
  pure { policies, routes, zones }

/-- The policies of one `security-context` element, in document order: the
body of the context loop expressed as a single traversal, used to state
that `Firewall.parse_policies` preserves document order. -/
def Firewall.contextPolicies (elt : XElem) : Option (List Policy) :=
  match XElem.find elt [Step.child "context-information", Step.child "source-zone-name"] with
  | none => none
  | some fzElt =>
    match XElem.find elt [Step.child "context-information", Step.child "destination-zone-name"] with
    | none => none
    | some tzElt =>
      optMapM (Policy.from_xml fzElt.text tzElt.text)
        (XElem.findall elt [Step.child "policies", Step.child "policy-information"])

/-! ### Concrete documents used to instantiate the claims -/

/-- A security zone with a name and no `address-book` element at all. -/
def c1NoBookZone : XElem := .mk "security-zone" none [.mk "name" (some "z1") []]

/-- A security zone whose address book redefines the entry `any` as
`10.0.0.0/24`. -/
def c1RedefZone : XElem := .mk "security-zone" none
  [ .mk "name" (some "z2") []
  , .mk "address-book" none
    [ .mk "address" none
      [ .mk "name" (some "any") [], .mk "ip-prefix" (some "10.0.0.0/24") [] ] ] ]

/-- The zone `c1RedefZone` parses to: the built-in `any` binding is
shadowed by the redefined one. -/
def c1RedefValue : Zone :=
  { name := some "z2", interfaces := [],
    addresses := [(some "any", [⟨167772160, 24⟩]), (some "any", anyIPSet)] }

/-- A security zone with an empty (but present) `address-book` element. -/
def c1EmptyBookZone : XElem := .mk "security-zone" none
  [ .mk "name" (some "z3") [], .mk "address-book" none [] ]

/-- The zone `c1EmptyBookZone` parses to. -/
def c1EmptyBookValue : Zone :=
  { name := some "z3", interfaces := [], addresses := zoneInitAddresses }

/-- A route table named `inet.6` holding one route. -/
def c2t6 : XElem := .mk (ns "route-table") none
  [ .mk (ns "table-name") (some "inet.6") []
  , .mk (ns "rt") none
    [ .mk (ns "rt-destination") (some "10.9.0.0/16") []
    , .mk (ns "rt-entry") none
      [ .mk (ns "current-active") none []
      , .mk (ns "nh") none
        [ .mk (ns "to") (some "10.9.0.1") [], .mk (ns "via") (some "ge-9/0/0") [] ] ] ] ]

/-- A route table named `inet.0` holding one route. -/
def c2t0 : XElem := .mk (ns "route-table") none
  [ .mk (ns "table-name") (some "inet.0") []
  , .mk (ns "rt") none
    [ .mk (ns "rt-destination") (some "10.1.1.0/24") []
    , .mk (ns "rt-entry") none
      [ .mk (ns "current-active") none []
      , .mk (ns "nh") none
        [ .mk (ns "to") (some "10.1.1.1") [], .mk (ns "via") (some "ge-0/0/1") [] ] ] ] ]

/-- A routing document whose only table is `inet.6`. -/
def c2NoMatchRoot : XElem := .mk "rpc-reply" none
  [ .mk (ns "route-information") none [ c2t6 ] ]

/-- A routing document holding `inet.6` followed by `inet.0`, with
differing entries. -/
def c2Root : XElem := .mk "rpc-reply" none
  [ .mk (ns "route-information") none [ c2t6, c2t0 ] ]

/-- A routing document with one `inet.0` table holding one route with a
`via`. -/
def c3Root : XElem := .mk "rpc-reply" none
  [ .mk (ns "route-information") none
    [ .mk (ns "route-table") none
      [ .mk (ns "table-name") (some "inet.0") []
      , .mk (ns "rt") none
        [ .mk (ns "rt-destination") (some "10.3.0.0/24") []
        , .mk (ns "rt-entry") none
          [ .mk (ns "current-active") none []
          , .mk (ns "nh") none
            [ .mk (ns "to") (some "10.3.0.1") [], .mk (ns "via") (some "ge-3/0/0") [] ] ] ] ] ] ]

/-- A route destination whose only (active) entry has no `via` descendant
(a discard route). -/
def c3NoViaRt : XElem := .mk (ns "rt") none
  [ .mk (ns "rt-destination") (some "10.3.9.0/24") []
  , .mk (ns "rt-entry") none [ .mk (ns "current-active") none [] ] ]

/-- A first `rt-entry` that carries no `current-active` marker. -/
def c4e1 : XElem := .mk (ns "rt-entry") none
  [ .mk (ns "nh") none [ .mk (ns "via") (some "ge-0/0/9") [] ] ]

/-- A second `rt-entry`, marked `current-active`, with a `to` next hop and
`via` `ge-0/0/1`. -/
def c4e2 : XElem := .mk (ns "rt-entry") none
  [ .mk (ns "current-active") none []
  , .mk (ns "nh") none
    [ .mk (ns "to") (some "10.1.1.1") [], .mk (ns "via") (some "ge-0/0/1") [] ] ]

/-- The destination `10.1.1.0/24` with the two entries `c4e1`, `c4e2`. -/
def c4rt : XElem := .mk (ns "rt") none
  [ .mk (ns "rt-destination") (some "10.1.1.0/24") [], c4e1, c4e2 ]

/-- A `policy-information` entry with no children: every required field is
missing. -/
def c5pe : XElem := .mk "policy-information" none []

/-- A security context whose zone names are present but whose one policy
entry is `c5pe`. -/
def c5sc : XElem := .mk "security-context" none
  [ .mk "context-information" none
    [ .mk "source-zone-name" (some "trust") []
    , .mk "destination-zone-name" (some "untrust") [] ]
  , .mk "policies" none [ c5pe ] ]

/-- A policy document containing the context `c5sc`. -/
def c5Root : XElem := .mk "root" none [ c5sc ]

/-- An address-set whose one member name, `missing`, is defined nowhere. -/
def c6set : XElem := .mk "address-set" none
  [ .mk "name" (some "S") []
  , .mk "address" none [ .mk "name" (some "missing") [] ] ]

/-- A security zone whose address book consists of the dangling set
`c6set`. -/
def c6sze : XElem := .mk "security-zone" none
  [ .mk "name" (some "z6") [], .mk "address-book" none [ c6set ] ]

/-- A zone defining address `A` = `10.0.0.0/24` and then address-set `S`
referencing `A` and `any`. -/
def c7zoneDoc : XElem := .mk "security-zone" none
  [ .mk "name" (some "dmz") []
  , .mk "address-book" none
    [ .mk "address" none
      [ .mk "name" (some "A") [], .mk "ip-prefix" (some "10.0.0.0/24") [] ]
    , .mk "address-set" none
      [ .mk "name" (some "S") []
      , .mk "address" none [ .mk "name" (some "A") [] ]
      , .mk "address" none [ .mk "name" (some "any") [] ] ] ] ]

/-- The zone `c7zoneDoc` parses to. -/
def c7zoneValue : Zone :=
  { name := some "dmz", interfaces := [],
    addresses := [ (some "S", [⟨167772160, 24⟩, anyIP])
                 , (some "A", [⟨167772160, 24⟩])
                 , (some "any", anyIPSet) ] }

/-- The address-set element of `c7zoneDoc`. -/
def c7setElt : XElem := .mk "address-set" none
  [ .mk "name" (some "S") []
  , .mk "address" none [ .mk "name" (some "A") [] ]
  , .mk "address" none [ .mk "name" (some "any") [] ] ]

/-- The address book right before `c7setElt` is processed: the built-in
`any` plus `A`. -/
def c7book : AddrMap := insertKey zoneInitAddresses (some "A") [⟨167772160, 24⟩]

/-- The address book right after `c7setElt` is processed. -/
def c7book2 : AddrMap := insertKey c7book (some "S") [⟨167772160, 24⟩, anyIP]

/-- A policy entry named `p1` with sequence number 1. -/
def c8pie1 : XElem := .mk "policy-information" none
  [ .mk "policy-name" (some "p1") []
  , .mk "policy-state" (some "enabled") []
  , .mk "policy-sequence-number" (some "1") []
  , .mk "policy-action" none [ .mk "action-type" (some "permit") [] ] ]

/-- A policy entry named `p2`, in the same context, with the same sequence
number 1. -/
def c8pie2 : XElem := .mk "policy-information" none
  [ .mk "policy-name" (some "p2") []
  , .mk "policy-state" (some "enabled") []
  , .mk "policy-sequence-number" (some "1") []
  , .mk "policy-action" none [ .mk "action-type" (some "deny") [] ] ]

/-- A policy document with one `a → b` context holding `c8pie1` then
`c8pie2`: two policies of the same zone pair with colliding sequence
numbers. -/
def c8Root : XElem := .mk "root" none
  [ .mk "security-context" none
    [ .mk "context-information" none
      [ .mk "source-zone-name" (some "a") []
      , .mk "destination-zone-name" (some "b") [] ]
    , .mk "policies" none [ c8pie1, c8pie2 ] ] ]

/-- The first policy `c8Root` parses to. -/
def c8pol1 : Policy :=
  { name := some "p1", from_zone := some "a", to_zone := some "b",
    enabled := true, sequence := 1, source_addresses := [],
    destination_addresses := [], applications := [], action := some "permit" }

/-- The second policy `c8Root` parses to: same zone pair, same sequence. -/
def c8pol2 : Policy :=
  { name := some "p2", from_zone := some "a", to_zone := some "b",
    enabled := true, sequence := 1, source_addresses := [],
    destination_addresses := [], applications := [], action := some "deny" }

/-- A zone whose address book defines `X` twice, redefines `any`, and then
builds a set `S` from the redefined `any` and the second `X`. -/
def c10Zone : XElem := .mk "security-zone" none
  [ .mk "name" (some "z10") []
  , .mk "address-book" none
    [ .mk "address" none
      [ .mk "name" (some "X") [], .mk "ip-prefix" (some "10.0.0.0/24") [] ]
    , .mk "address" none
      [ .mk "name" (some "X") [], .mk "ip-prefix" (some "10.1.0.0/24") [] ]
    , .mk "address" none
      [ .mk "name" (some "any") [], .mk "ip-prefix" (some "10.2.0.0/24") [] ]
    , .mk "address-set" none
      [ .mk "name" (some "S") []
      , .mk "address" none [ .mk "name" (some "any") [] ]
      , .mk "address" none [ .mk "name" (some "X") [] ] ] ] ]

/-! ### General lemmas about the looping combinators -/

theorem optFoldl_append (f : σ → α → Option σ) (s : σ) (l1 l2 : List α) :
    optFoldl f s (l1 ++ l2) =
      match optFoldl f s l1 with
      | none => none
      | some s2 => optFoldl f s2 l2 := by
  induction l1 generalizing s with
  | nil => simp [optFoldl]
  | cons a as ih =>
    simp only [List.cons_append, optFoldl]
    cases f s a with
    | none => rfl
    | some s2 => exact ih s2

theorem optFoldl_none_of_mem (f : σ → α → Option σ) (a : α) (l : List α)
    (hf : ∀ s, f s a = none) (ha : a ∈ l) (s : σ) :
    optFoldl f s l = none := by
  induction l generalizing s with
  | nil => cases ha
  | cons b bs ih =>
    rcases List.mem_cons.mp ha with rfl | hmem
    · simp [optFoldl, hf s]
    · simp only [optFoldl]
      cases f s b with
      | none => rfl
      | some s2 => exact ih hmem s2

theorem optMapM_none_of_mem (f : α → Option β) (a : α) (l : List α)
    (hf : f a = none) (ha : a ∈ l) :
    optMapM f l = none := by
  induction l with
  | nil => cases ha
  | cons b bs ih =>
    rcases List.mem_cons.mp ha with rfl | hmem
    · simp [optMapM, hf]
    · simp only [optMapM]
      cases f b with
      | none => rfl
      | some bb =>
        rw [ih hmem]

theorem listFlat_append (f : α → List β) (l1 l2 : List α) :
    listFlat f (l1 ++ l2) = listFlat f l1 ++ listFlat f l2 := by
  induction l1 with
  | nil => simp [listFlat]
  | cons a as ih => simp [listFlat, ih]

/-! ### Lemmas about the IP-set denotation -/

theorem IPSet.toSet_append (a b : IPSet) :
    IPSet.toSet (a ++ b) = IPSet.toSet a ∪ IPSet.toSet b := by
  ext n
  simp only [IPSet.toSet, Set.mem_union, Set.mem_def, List.mem_append]
  constructor
  · rintro ⟨r, hr | hr, hn⟩
    · exact Or.inl ⟨r, hr, hn⟩
    · exact Or.inr ⟨r, hr, hn⟩
  · rintro (⟨r, hr, hn⟩ | ⟨r, hr, hn⟩)
    · exact ⟨r, Or.inl hr, hn⟩
    · exact ⟨r, Or.inr hr, hn⟩

theorem IPSet.toSet_nil : IPSet.toSet [] = ∅ := by
  ext n
  constructor
  · rintro ⟨r, hr, _⟩
    exact absurd hr (List.not_mem_nil r)
  · exact fun h => h.elim

theorem IPSet.toSet_anyIPSet : IPSet.toSet anyIPSet = fullSpace := by
  ext n
  simp only [IPSet.toSet, anyIPSet, anyIP, fullSpace, IP.toSet, List.mem_singleton,
    Set.mem_def]
  constructor
  · rintro ⟨r, rfl, hn, _⟩
    exact hn
  · intro hn
    refine ⟨⟨0, 0⟩, rfl, hn, ?_⟩
    show n / 2 ^ 32 = 0 / 2 ^ 32
    omega

/-! ### Lemmas about the zone address-book loop -/

theorem lookupKey_insert_self (m : AddrMap) (k : Option String) (v : IPSet) :
    lookupKey (insertKey m k v) k = some v := by
  simp [lookupKey, insertKey]

theorem lookupKey_insert_ne (m : AddrMap) (k key : Option String) (v : IPSet)
    (h : k ≠ key) :
    lookupKey (insertKey m k v) key = lookupKey m key := by
  simp [lookupKey, insertKey, h]

theorem Zone.processAddr_shape (m m2 : AddrMap) (addr : XElem)
    (h : Zone.processAddr m addr = some m2) :
    ∃ ip, Zone.resolveEntry m addr = some ip ∧
      m2 = insertKey m (XElem.findtext addr [Step.child "name"]) ip := by
  unfold Zone.processAddr at h
  cases hre : Zone.resolveEntry m addr with
  | none => rw [hre] at h; cases h
  | some ip =>
    rw [hre] at h
    exact ⟨ip, rfl, (Option.some_injective _ h).symm⟩

theorem addrFold_lookup_preserved (l : List XElem) (m m2 : AddrMap)
    (key : Option String)
    (h : optFoldl Zone.processAddr m l = some m2)
    (hname : ∀ addr ∈ l, XElem.findtext addr [Step.child "name"] ≠ key) :
    lookupKey m2 key = lookupKey m key := by
  induction l generalizing m with
  | nil =>
    simp only [optFoldl] at h
    cases h
    rfl
  | cons a as ih =>
    simp only [optFoldl] at h
    cases ha : Zone.processAddr m a with
    | none => rw [ha] at h; cases h
    | some m1 =>
      rw [ha] at h
      obtain ⟨ip, -, rfl⟩ := Zone.processAddr_shape m m1 a ha
      rw [ih _ h (fun addr hmem => hname addr (List.mem_cons_of_mem a hmem))]
      exact lookupKey_insert_ne m _ key ip (hname a (List.mem_cons_self a as))

theorem addrFold_key_present (l : List XElem) (m m2 : AddrMap)
    (key : Option String)
    (h : optFoldl Zone.processAddr m l = some m2)
    (hpresent : ∃ v, lookupKey m key = some v) :
    ∃ v, lookupKey m2 key = some v := by
  induction l generalizing m with
  | nil =>
    simp only [optFoldl] at h
    cases h
    exact hpresent
  | cons a as ih =>
    simp only [optFoldl] at h
    cases ha : Zone.processAddr m a with
    | none => rw [ha] at h; cases h
    | some m1 =>
      rw [ha] at h
      obtain ⟨ip, -, rfl⟩ := Zone.processAddr_shape m m1 a ha
      refine ih _ h ?_
      by_cases hk : XElem.findtext a [Step.child "name"] = key
      · subst hk
        exact ⟨ip, lookupKey_insert_self m _ ip⟩
      · rw [lookupKey_insert_ne m _ key ip hk]
        exact hpresent

theorem resolveSetMembers_none (m : AddrMap) (members : List XElem) (sa : XElem)
    (hmem : sa ∈ members)
    (hfail : lookupKey m (XElem.findtext sa [Step.child "name"]) = none) :
    ∀ acc, resolveSetMembers m members acc = none := by
  induction members with
  | nil => cases hmem
  | cons b bs ih =>
    intro acc
    rcases List.mem_cons.mp hmem with rfl | hmem2
    · simp [resolveSetMembers, hfail]
    · simp only [resolveSetMembers]
      cases lookupKey m (XElem.findtext b [Step.child "name"]) with
      | none => rfl
      | some v => exact ih hmem2 (acc ++ v)

theorem resolveSetMembers_toSet (m : AddrMap) (members : List XElem)
    (acc ip : IPSet)
    (h : resolveSetMembers m members acc = some ip) :
    ∀ n, n ∈ IPSet.toSet ip ↔
      n ∈ IPSet.toSet acc ∨
      ∃ sa ∈ members, ∃ v,
        lookupKey m (XElem.findtext sa [Step.child "name"]) = some v ∧
        n ∈ IPSet.toSet v := by
  induction members generalizing acc with
  | nil =>
    simp only [resolveSetMembers] at h
    cases h
    intro n
    simp
  | cons b bs ih =>
    simp only [resolveSetMembers] at h
    cases hb : lookupKey m (XElem.findtext b [Step.child "name"]) with
    | none => rw [hb] at h; cases h
    | some v =>
      rw [hb] at h
      intro n
      rw [ih (acc ++ v) h n, IPSet.toSet_append]
      constructor
      · rintro (hn | hrest)
        · rcases hn with hn | hn
          · exact Or.inl hn
          · exact Or.inr ⟨b, List.mem_cons_self b bs, v, hb, hn⟩
        · obtain ⟨sa, hsa, w, hw, hn⟩ := hrest
          exact Or.inr ⟨sa, List.mem_cons_of_mem b hsa, w, hw, hn⟩
      · rintro (hn | ⟨sa, hsa, w, hw, hn⟩)
        · exact Or.inl (Or.inl hn)
        · rcases List.mem_cons.mp hsa with rfl | hsa2
          · rw [hb] at hw
            cases hw
            exact Or.inl (Or.inr hn)
          · exact Or.inr ⟨sa, hsa2, w, hw, hn⟩

/-! ### Lemmas about the policy parse -/

theorem optBindNone (x : Option α) (f : α → Option β) (hf : ∀ a, f a = none) :
    (x >>= f) = none := by
  cases x with
  | none => rfl
  | some a => exact hf a

theorem Policy.from_xml_none (fz tz : Option String) (pie : XElem)
    (hbad : XElem.find pie [Step.child "policy-name"] = none ∨
      XElem.find pie [Step.child "policy-state"] = none ∨
      Policy.sequenceOf pie = none ∨
      XElem.find pie [Step.child "policy-action", Step.child "action-type"] = none) :
    Policy.from_xml fz tz pie = none := by
  unfold Policy.from_xml
  rcases hbad with h | h | h | h
  · rw [h]; rfl
  · apply optBindNone; intro nameElt
    rw [h]; rfl
  · apply optBindNone; intro nameElt
    apply optBindNone; intro stateElt
    rw [h]; rfl
  · apply optBindNone; intro nameElt
    apply optBindNone; intro stateElt
    apply optBindNone; intro seq
    apply optBindNone; intro srcs
    apply optBindNone; intro dsts
    apply optBindNone; intro apps
    rw [h]; rfl

/-! ### Lemmas about the route parse -/

theorem Route.entryStep_inactive (st : Option String × Option Bool) (entry : XElem)
    (h : XElem.findall entry [Step.desc (ns "current-active")] = []) :
    Route.entryStep st entry = st := by
  unfold Route.entryStep
  rw [h]

theorem Route.foldl_interface_none (l : List XElem)
    (h : ∀ e ∈ l, XElem.findall e [Step.desc (ns "current-active")] ≠ [] →
      XElem.findall e [Step.desc (ns "via")] = []) :
    ∀ st : Option String × Option Bool, st.1 = none →
      (l.foldl Route.entryStep st).1 = none := by
  induction l with
  | nil => exact fun st hst => hst
  | cons e es ih =>
    intro st hst
    rw [List.foldl_cons]
    refine ih (fun x hx => h x (List.mem_cons_of_mem e hx)) _ ?_
    unfold Route.entryStep
    cases hact : XElem.findall e [Step.desc (ns "current-active")] with
    | nil => exact hst
    | cons a as =>
      have hvia := h e (List.mem_cons_self e es) (by rw [hact]; exact List.cons_ne_nil a as)
      rw [hvia]
      exact hst

theorem Route.from_xml_some (rt_elt : XElem) (r : Route)
    (h : Route.from_xml rt_elt = some (some r)) :
    strTruthy r.interface = true ∧
    r.interface =
      ((XElem.findall rt_elt [Step.child (ns "rt-entry")]).foldl Route.entryStep (none, none)).1 ∧
    r.is_local =
      ((XElem.findall rt_elt [Step.child (ns "rt-entry")]).foldl Route.entryStep (none, none)).2 := by
  unfold Route.from_xml at h
  split at h
  · exact Option.noConfusion h
  · split at h
    · exact Option.noConfusion h
    · split at h
      · exact Option.noConfusion h
      · dsimp only at h
        split at h
        · rw [Option.some_inj] at h
          rw [Option.some_inj] at h
          subst h
          refine ⟨?_, rfl, rfl⟩
          assumption
        · exact Option.noConfusion (Option.some_inj.mp h)

theorem Firewall.routesLoop_no_match (tables : List XElem)
    (h : ∀ t ∈ tables,
      XElem.findtext t [Step.child (ns "table-name")] ≠ some "inet.0") :
    Firewall.routesLoop tables = some [] := by
  induction tables with
  | nil => rfl
  | cons t ts ih =>
    unfold Firewall.routesLoop
    rw [if_neg (h t (List.mem_cons_self t ts))]
    exact ih (fun u hu => h u (List.mem_cons_of_mem t hu))

theorem Firewall.routesLoop_first (pre : List XElem) (t : XElem) (post : List XElem)
    (hpre : ∀ u ∈ pre,
      XElem.findtext u [Step.child (ns "table-name")] ≠ some "inet.0")
    (ht : XElem.findtext t [Step.child (ns "table-name")] = some "inet.0") :
    Firewall.routesLoop (pre ++ t :: post) = Firewall.tableRoutes t := by
  induction pre with
  | nil =>
    rw [List.nil_append]
    unfold Firewall.routesLoop
    rw [if_pos ht]
  | cons u us ih =>
    rw [List.cons_append]
    unfold Firewall.routesLoop
    rw [if_neg (hpre u (List.mem_cons_self u us))]
    exact ih (fun v hv => hpre v (List.mem_cons_of_mem u hv))

theorem routeFold_mem (l : List XElem) :
    ∀ (acc routes : List Route),
      optFoldl (fun acc2 rt_elt =>
          match Route.from_xml rt_elt with
          | none => none
          | some (some r) => some (acc2 ++ [r])
          | some none => some acc2) acc l = some routes →
      ∀ r ∈ routes, r ∈ acc ∨ ∃ rt ∈ l, Route.from_xml rt = some (some r) := by
  induction l with
  | nil =>
    intro acc routes h r hr
    simp only [optFoldl] at h
    cases h
    exact Or.inl hr
  | cons a as ih =>
    intro acc routes h r hr
    simp only [optFoldl] at h
    cases hfa : Route.from_xml a with
    | none => rw [hfa] at h; cases h
    | some o =>
      rw [hfa] at h
      cases o with
      | none =>
        rcases ih acc routes h r hr with hacc | ⟨rt, hrt, hre⟩
        · exact Or.inl hacc
        · exact Or.inr ⟨rt, List.mem_cons_of_mem a hrt, hre⟩
      | some rr =>
        rcases ih (acc ++ [rr]) routes h r hr with hacc | ⟨rt, hrt, hre⟩
        · rcases List.mem_append.mp hacc with hl | hr1
          · exact Or.inl hl
          · rw [List.mem_singleton.mp hr1]
            exact Or.inr ⟨a, List.mem_cons_self a as, hfa⟩
        · exact Or.inr ⟨rt, List.mem_cons_of_mem a hrt, hre⟩

theorem Firewall.tableRoutes_mem (table : XElem) (routes : List Route) (r : Route)
    (h : Firewall.tableRoutes table = some routes) (hr : r ∈ routes) :
    ∃ rt ∈ XElem.findall table [Step.child (ns "rt")],
      Route.from_xml rt = some (some r) := by
  unfold Firewall.tableRoutes at h
  rcases routeFold_mem _ [] routes h r hr with habs | hfound
  · cases habs
  · exact hfound

theorem foldl_entryStep_inactive (l : List XElem)
    (h : ∀ e ∈ l, XElem.findall e [Step.desc (ns "current-active")] = [])
    (st : Option String × Option Bool) :
    l.foldl Route.entryStep st = st := by
  induction l generalizing st with
  | nil => rfl
  | cons e es ih =>
    rw [List.foldl_cons, Route.entryStep_inactive st e (h e (List.mem_cons_self e es))]
    exact ih (fun x hx => h x (List.mem_cons_of_mem e hx)) st

/-! ### The fold–traversal correspondence behind the policy extractor -/

theorem polFold_eq_mapM (f : XElem → Option Policy) (l : List XElem) :
    ∀ acc : List Policy,
      optFoldl (fun acc2 pol_elt =>
          match f pol_elt with
          | none => none
          | some policy => some (acc2 ++ [policy])) acc l =
        (optMapM f l).map (fun ps => acc ++ ps) := by
  induction l with
  | nil =>
    intro acc
    simp [optFoldl, optMapM]
  | cons a as ih =>
    intro acc
    simp only [optFoldl, optMapM]
    cases hfa : f a with
    | none => rfl
    | some p =>
      dsimp only
      rw [ih (acc ++ [p])]
      cases optMapM f as with
      | none => rfl
      | some ps => simp

theorem Firewall.ctxStep_eq (acc : List Policy) (elt : XElem) :
    Firewall.ctxStep acc elt =
      (Firewall.contextPolicies elt).map (fun ps => acc ++ ps) := by
  unfold Firewall.ctxStep Firewall.contextPolicies
  cases XElem.find elt [Step.child "context-information", Step.child "source-zone-name"] with
  | none => rfl
  | some fzElt =>
    cases XElem.find elt [Step.child "context-information", Step.child "destination-zone-name"] with
    | none => rfl
    | some tzElt =>
      dsimp only
      exact polFold_eq_mapM _ _ acc

theorem ctxFold_eq_mapM (l : List XElem) :
    ∀ acc : List Policy,
      optFoldl Firewall.ctxStep acc l =
        (optMapM Firewall.contextPolicies l).map
          (fun gs => acc ++ listFlat id gs) := by
  induction l with
  | nil =>
    intro acc
    simp [optFoldl, optMapM, listFlat]
  | cons elt els ih =>
    intro acc
    simp only [optFoldl, optMapM]
    rw [Firewall.ctxStep_eq acc elt]
    cases hcp : Firewall.contextPolicies elt with
    | none => rfl
    | some ps =>
      dsimp only [Option.map]
      rw [ih (acc ++ ps)]
      cases optMapM Firewall.contextPolicies els with
      | none => rfl
      | some gs => simp [listFlat]

theorem Firewall.ctxStep_none_of_badEntry (sc pe : XElem)
    (hpe : pe ∈ XElem.findall sc [Step.child "policies", Step.child "policy-information"])
    (hbad : ∀ fz tz, Policy.from_xml fz tz pe = none) :
    ∀ acc, Firewall.ctxStep acc sc = none := by
  intro acc
  unfold Firewall.ctxStep
  cases XElem.find sc [Step.child "context-information", Step.child "source-zone-name"] with
  | none => rfl
  | some fzElt =>
    cases XElem.find sc [Step.child "context-information", Step.child "destination-zone-name"] with
    | none => rfl
    | some tzElt =>
      refine optFoldl_none_of_mem _ pe _ (fun s => ?_) hpe acc
      rw [hbad fzElt.text tzElt.text]

theorem Firewall.routesLoop_mem (tables : List XElem) (routes : List Route) (r : Route)
    (h : Firewall.routesLoop tables = some routes) (hr : r ∈ routes) :
    ∃ rt, Route.from_xml rt = some (some r) := by
  induction tables with
  | nil =>
    unfold Firewall.routesLoop at h
    cases h
    cases hr
  | cons t ts ih =>
    unfold Firewall.routesLoop at h
    by_cases hname : XElem.findtext t [Step.child (ns "table-name")] = some "inet.0"
    · rw [if_pos hname] at h
      obtain ⟨rt, -, hre⟩ := Firewall.tableRoutes_mem t routes r h hr
      exact ⟨rt, hre⟩
    · rw [if_neg hname] at h
      exact ih h

/-! ### The claims -/

/-- Claim C9: policy extraction emits `Policy` values in the document's
traversal order: `security-context` blocks in document order (the order
`findall` with a descendant step produces), and within each context the
`policy-information` entries in document order, independent of their
sequence numbers: the accumulating loop equals the flattening of the
per-context traversal `Firewall.contextPolicies`. -/
theorem policy_document_order (root : XElem) :
    Firewall.parse_policies root =
      (optMapM Firewall.contextPolicies
        (XElem.findall root [Step.desc "security-context"])).map (listFlat id) := by
  unfold Firewall.parse_policies
  rw [ctxFold_eq_mapM]
  cases optMapM Firewall.contextPolicies (XElem.findall root [Step.desc "security-context"]) with
  | none => rfl
  | some gs => simp

/-- Claim C2: route extraction processes exactly the first `route-table`
whose `table-name` text equals `inet.0` (everything after it is ignored),
and a document with no such table yields `some []`, not an error. -/
theorem route_table_first_inet0 (root : XElem) :
    ((∀ t ∈ XElem.findall root [Step.desc (ns "route-table")],
        XElem.findtext t [Step.child (ns "table-name")] ≠ some "inet.0") →
      Firewall.parse_routes root = some []) ∧
    (∀ pre t post,
      XElem.findall root [Step.desc (ns "route-table")] = pre ++ t :: post →
      (∀ u ∈ pre, XElem.findtext u [Step.child (ns "table-name")] ≠ some "inet.0") →
      XElem.findtext t [Step.child (ns "table-name")] = some "inet.0" →
      Firewall.parse_routes root = Firewall.tableRoutes t) := by
  constructor
  · intro h
    unfold Firewall.parse_routes
    exact Firewall.routesLoop_no_match _ h
  · intro pre t post hdecomp hpre ht
    unfold Firewall.parse_routes
    rw [hdecomp]
    exact Firewall.routesLoop_first pre t post hpre ht

/-- Witness for C2: a document whose only table is `inet.6` yields `[]`;
a document holding `inet.6` then `inet.0` yields exactly the `inet.0`
table's routes. -/
theorem route_table_first_inet0_witness :
    Firewall.parse_routes c2NoMatchRoot = some [] ∧
    Firewall.parse_routes c2Root = Firewall.tableRoutes c2t0 ∧
    Firewall.tableRoutes c2t0 =
      some [⟨⟨167837952, 24⟩, some "ge-0/0/1", some false⟩] :=
  ⟨(route_table_first_inet0 c2NoMatchRoot).1 (fun t ht => by
      rw [show XElem.findall c2NoMatchRoot [Step.desc (ns "route-table")] = [c2t6] from rfl] at ht
      rw [List.mem_singleton] at ht
      subst ht
      decide),
   (route_table_first_inet0 c2Root).2 [c2t6] c2t0 [] rfl
     (fun u hu => by
       rw [List.mem_singleton] at hu
       subst hu
       decide)
     (by decide),
   by decide⟩

/-- Claim C3: every route in the extractor's output has a non-empty
interface string, and a destination all of whose active entries expose no
`via` descendant produces no `Route` at all. -/
theorem route_interface_nonempty :
    (∀ root routes r, Firewall.parse_routes root = some routes → r ∈ routes →
      ∃ s, r.interface = some s ∧ s ≠ "") ∧
    (∀ rt_elt,
      (∀ e ∈ XElem.findall rt_elt [Step.child (ns "rt-entry")],
        XElem.findall e [Step.desc (ns "current-active")] ≠ [] →
        XElem.findall e [Step.desc (ns "via")] = []) →
      ∀ r, Route.from_xml rt_elt ≠ some (some r)) := by
  constructor
  · intro root routes r hparse hr
    unfold Firewall.parse_routes at hparse
    obtain ⟨rt, hre⟩ := Firewall.routesLoop_mem _ routes r hparse hr
    obtain ⟨htr, -, -⟩ := Route.from_xml_some rt r hre
    cases hint : r.interface with
    | none => rw [hint] at htr; cases htr
    | some s =>
      refine ⟨s, rfl, fun hs => ?_⟩
      subst hs
      rw [hint] at htr
      cases htr
  · intro rt_elt hnovia r heq
    obtain ⟨htr, hint, -⟩ := Route.from_xml_some rt_elt r heq
    rw [Route.foldl_interface_none _ hnovia (none, none) rfl] at hint
    rw [hint] at htr
    cases htr

/-- Witness for C3: the one route of `c3Root` carries the non-empty
interface `ge-3/0/0`, and the active-but-via-less destination `c3NoViaRt`
never yields a route. -/
theorem route_interface_nonempty_witness :
    (∃ s, (⟨⟨167968768, 24⟩, some "ge-3/0/0", some false⟩ : Route).interface = some s ∧ s ≠ "") ∧
    Route.from_xml c3NoViaRt ≠ some (some ⟨⟨0, 0⟩, some "x", some true⟩) :=
  ⟨route_interface_nonempty.1 c3Root
      [⟨⟨167968768, 24⟩, some "ge-3/0/0", some false⟩]
      ⟨⟨167968768, 24⟩, some "ge-3/0/0", some false⟩ (by rfl)
      (List.mem_singleton.mpr rfl),
   route_interface_nonempty.2 c3NoViaRt
     (fun e he => by
       rw [show XElem.findall c3NoViaRt [Step.child (ns "rt-entry")] =
         [XElem.mk (ns "rt-entry") none [XElem.mk (ns "current-active") none []]] from rfl] at he
       rw [List.mem_singleton] at he
       subst he
       intro _
       rfl)
     ⟨⟨0, 0⟩, some "x", some true⟩⟩

/-- Claim C4: when exactly one `rt-entry` of a destination carries a
`current-active` marker, the emitted route's `is_local` is true exactly
when that entry has no `to` element beneath it, and the interface is the
text of the first `via` element beneath it; in particular `c4rt` (two
entries, only the second active, via `ge-0/0/1`, with a next hop) yields
exactly `Route(10.1.1.0/24, "ge-0/0/1", is_local := false)`. -/
theorem route_active_entry_fields :
    (∀ rt_elt pre e post r,
      XElem.findall rt_elt [Step.child (ns "rt-entry")] = pre ++ e :: post →
      (∀ x ∈ pre, XElem.findall x [Step.desc (ns "current-active")] = []) →
      (∀ x ∈ post, XElem.findall x [Step.desc (ns "current-active")] = []) →
      XElem.findall e [Step.desc (ns "current-active")] ≠ [] →
      Route.from_xml rt_elt = some (some r) →
      r.is_local = some (XElem.findall e [Step.desc (ns "to")]).isEmpty ∧
      r.interface = (match XElem.findall e [Step.desc (ns "via")] with
        | [] => none
        | v :: _ => v.text)) ∧
    Route.from_xml c4rt =
      some (some ⟨⟨167837952, 24⟩, some "ge-0/0/1", some false⟩) := by
  constructor
  · intro rt_elt pre e post r hdecomp hpre hpost hact hparse
    obtain ⟨-, hint, hloc⟩ := Route.from_xml_some rt_elt r hparse
    rw [hdecomp, List.foldl_append, foldl_entryStep_inactive pre hpre,
      List.foldl_cons, foldl_entryStep_inactive post hpost] at hint hloc
    unfold Route.entryStep at hint hloc
    cases hae : XElem.findall e [Step.desc (ns "current-active")] with
    | nil => exact absurd hae hact
    | cons a as =>
      rw [hae] at hint hloc
      dsimp only at hint hloc
      exact ⟨hloc, hint⟩
  · rfl

/-- Witness for C4: the theorem instantiated at `c4rt` with the inactive
entry `c4e1` before and nothing after the active entry `c4e2`. -/
theorem route_active_entry_fields_witness :
    XElem.findall c4rt [Step.child (ns "rt-entry")] = [c4e1] ++ c4e2 :: [] ∧
    XElem.findall c4e2 [Step.desc (ns "current-active")] ≠ [] ∧
    ((⟨⟨167837952, 24⟩, some "ge-0/0/1", some false⟩ : Route).is_local
        = some (XElem.findall c4e2 [Step.desc (ns "to")]).isEmpty ∧
      (⟨⟨167837952, 24⟩, some "ge-0/0/1", some false⟩ : Route).interface
        = (match XElem.findall c4e2 [Step.desc (ns "via")] with
           | [] => none
           | v :: _ => v.text)) :=
  ⟨rfl,
   by
     rw [show XElem.findall c4e2 [Step.desc (ns "current-active")] =
       [XElem.mk (ns "current-active") none []] from rfl]
     exact List.cons_ne_nil _ _,
   route_active_entry_fields.1 c4rt [c4e1] c4e2 [] _ rfl
     (fun x hx => by
       rw [List.mem_singleton] at hx
       subst hx
       rfl)
     (fun x hx => absurd hx (List.not_mem_nil x))
     (by
       rw [show XElem.findall c4e2 [Step.desc (ns "current-active")] =
         [XElem.mk (ns "current-active") none []] from rfl]
       exact List.cons_ne_nil _ _)
     rfl⟩

/-- Claim C5: a `policy-information` entry missing its name, state,
sequence number or action, or whose sequence-number text is not numeric,
makes the whole policy-document parse fail: no partial policy list is
returned. -/
theorem policy_missing_field_fails (root sc pe : XElem)
    (pre post pre2 post2 : List XElem)
    (hctx : XElem.findall root [Step.desc "security-context"] = pre ++ sc :: post)
    (hent : XElem.findall sc [Step.child "policies", Step.child "policy-information"]
      = pre2 ++ pe :: post2)
    (hbad : XElem.find pe [Step.child "policy-name"] = none ∨
      XElem.find pe [Step.child "policy-state"] = none ∨
      Policy.sequenceOf pe = none ∨
      XElem.find pe [Step.child "policy-action", Step.child "action-type"] = none) :
    Firewall.parse_policies root = none := by
  unfold Firewall.parse_policies
  rw [hctx]
  refine optFoldl_none_of_mem Firewall.ctxStep sc _ ?_ ?_ []
  · exact Firewall.ctxStep_none_of_badEntry sc pe
      (by
        rw [hent]
        exact List.mem_append.mpr (Or.inr (List.mem_cons_self pe post2)))
      (fun fz tz => Policy.from_xml_none fz tz pe hbad)
  · exact List.mem_append.mpr (Or.inr (List.mem_cons_self sc post))

/-- Witness for C5: the childless entry `c5pe` (its `policy-name` is
missing) aborts the parse of `c5Root`. -/
theorem policy_missing_field_fails_witness :
    XElem.findall c5Root [Step.desc "security-context"] = [] ++ c5sc :: [] ∧
    XElem.findall c5sc [Step.child "policies", Step.child "policy-information"]
      = [] ++ c5pe :: [] ∧
    XElem.find c5pe [Step.child "policy-name"] = none ∧
    Firewall.parse_policies c5Root = none :=
  ⟨rfl, rfl, rfl,
   policy_missing_field_fails c5Root c5sc c5pe [] [] [] [] rfl rfl (Or.inl rfl)⟩

/-- Claim C6: an address-set member whose name is not already bound in the
zone's address book (the built-in `any` plus entries defined earlier in
the same zone) makes the whole zone parse fail; no zone with a partial
address book is produced. -/
theorem zone_unknown_member_fails (sze ab addr sa : XElem) (m : AddrMap)
    (pre post spre spost : List XElem)
    (hab : XElem.find sze [Step.child "address-book"] = some ab)
    (hchildren : ab.children = pre ++ addr :: post)
    (hfold : optFoldl Zone.processAddr zoneInitAddresses pre = some m)
    (htag : addr.tag ≠ "address")
    (hmembers : XElem.findall addr [Step.child "address"] = spre ++ sa :: spost)
    (hmiss : lookupKey m (XElem.findtext sa [Step.child "name"]) = none) :
    Zone.from_xml sze = none := by
  have hpa : Zone.processAddr m addr = none := by
    unfold Zone.processAddr Zone.resolveEntry
    rw [if_neg htag, hmembers,
      resolveSetMembers_none m _ sa
        (List.mem_append.mpr (Or.inr (List.mem_cons_self sa spost))) hmiss []]
  unfold Zone.from_xml
  cases XElem.find sze [Step.child "name"] with
  | none => rfl
  | some nameElt =>
    rw [hab]
    dsimp only
    rw [hchildren, optFoldl_append, hfold]
    dsimp only
    simp only [optFoldl]
    rw [hpa]

/-- Witness for C6: the set `c6set` references the undefined name
`missing`, so `c6sze` fails to parse. -/
theorem zone_unknown_member_fails_witness :
    XElem.find c6sze [Step.child "address-book"]
      = some (XElem.mk "address-book" none [c6set]) ∧
    c6set.tag ≠ "address" ∧
    lookupKey zoneInitAddresses
      (XElem.findtext (XElem.mk "address" none [XElem.mk "name" (some "missing") []])
        [Step.child "name"]) = none ∧
    Zone.from_xml c6sze = none :=
  ⟨rfl, by decide, rfl,
   zone_unknown_member_fails c6sze (XElem.mk "address-book" none [c6set]) c6set
     (XElem.mk "address" none [XElem.mk "name" (some "missing") []])
     zoneInitAddresses [] [] [] [] rfl rfl rfl (by decide) rfl rfl⟩

/-- Counterexample to claim C1 as stated: an address-book entry named
`any` rebinds the key to `10.0.0.0/24`, which is not the full address
space (it misses address 0); and a security zone with no `address-book`
element at all fails to parse instead of yielding a zone. -/
theorem zone_any_entry_counterexample :
    Zone.from_xml c1NoBookZone = none ∧
    Zone.from_xml c1RedefZone = some c1RedefValue ∧
    lookupKey c1RedefValue.addresses (some "any") = some [⟨167772160, 24⟩] ∧
    (0 : Nat) ∈ fullSpace ∧
    (0 : Nat) ∉ IPSet.toSet [(⟨167772160, 24⟩ : IP)] := by
  refine ⟨rfl, rfl, rfl, by show (0 : Nat) < 2 ^ 32; norm_num, ?_⟩
  rintro ⟨r, hr, -, heq⟩
  rw [List.mem_singleton] at hr
  subst hr
  rw [show (32 : Nat) - (⟨167772160, 24⟩ : IP).plen = 8 from rfl] at heq
  norm_num at heq

/-- Claim C1 as amended: every zone the extractor returns has the key
`any` in its address book; that key is still bound to the full-space value
whenever no address-book entry is itself named `any`; and a security-zone
element with no `address-book` child makes the zone parse fail (an empty
`address-book` element is fine and leaves only the built-in binding). -/
theorem zone_any_entry_amended :
    (∀ sze z, Zone.from_xml sze = some z →
      (∃ v, lookupKey z.addresses (some "any") = some v) ∧
      (∀ ab, XElem.find sze [Step.child "address-book"] = some ab →
        (∀ addr ∈ ab.children,
          XElem.findtext addr [Step.child "name"] ≠ some "any") →
        lookupKey z.addresses (some "any") = some anyIPSet)) ∧
    (∀ sze, XElem.find sze [Step.child "address-book"] = none →
      Zone.from_xml sze = none) ∧
    IPSet.toSet anyIPSet = fullSpace := by
  refine ⟨?_, ?_, IPSet.toSet_anyIPSet⟩
  · intro sze z hz
    unfold Zone.from_xml at hz
    cases hname : XElem.find sze [Step.child "name"] with
    | none => rw [hname] at hz; cases hz
    | some nameElt =>
      rw [hname] at hz
      dsimp only at hz
      cases hab0 : XElem.find sze [Step.child "address-book"] with
      | none => rw [hab0] at hz; cases hz
      | some ab0 =>
        rw [hab0] at hz
        dsimp only at hz
        cases hfold : optFoldl Zone.processAddr zoneInitAddresses ab0.children with
        | none => rw [hfold] at hz; cases hz
        | some addresses =>
          rw [hfold] at hz
          dsimp only at hz
          rw [Option.some_inj] at hz
          subst hz
          constructor
          · exact addrFold_key_present ab0.children zoneInitAddresses addresses
              (some "any") hfold ⟨anyIPSet, rfl⟩
          · intro ab hab hnone
            obtain rfl := Option.some_inj.mp hab
            show lookupKey addresses (some "any") = some anyIPSet
            exact (addrFold_lookup_preserved _ zoneInitAddresses addresses
              (some "any") hfold hnone).trans (by rfl)
  · intro sze hnb
    unfold Zone.from_xml
    cases XElem.find sze [Step.child "name"] with
    | none => rfl
    | some nameElt =>
      rw [hnb]

/-- Witness for the amended C1: the empty-address-book zone parses and
keeps `any` bound to the full-space value, and the book-less zone fails. -/
theorem zone_any_entry_witness :
    Zone.from_xml c1EmptyBookZone = some c1EmptyBookValue ∧
    (∃ v, lookupKey c1EmptyBookValue.addresses (some "any") = some v) ∧
    lookupKey c1EmptyBookValue.addresses (some "any") = some anyIPSet ∧
    XElem.find c1NoBookZone [Step.child "address-book"] = none ∧
    Zone.from_xml c1NoBookZone = none :=
  ⟨rfl,
   (zone_any_entry_amended.1 c1EmptyBookZone c1EmptyBookValue rfl).1,
   (zone_any_entry_amended.1 c1EmptyBookZone c1EmptyBookValue rfl).2
     (XElem.mk "address-book" none []) rfl
     (fun addr ha => absurd ha (List.not_mem_nil addr)),
   rfl,
   zone_any_entry_amended.2.1 c1NoBookZone rfl⟩

/-- Claim C7: a successfully resolved address-set entry is stored under its
own name and its IP set denotes exactly the union of the sets of its
members at the moment of resolution; resolution is a pure function of the
document (the same document always yields the same, value-equal result).
In particular in `c7zoneDoc` the set `S` referencing `A` and `any`
denotes the full address space while `A` remains `10.0.0.0/24`. -/
theorem address_set_union :
    (∀ addresses addr m2, addr.tag ≠ "address" →
      Zone.processAddr addresses addr = some m2 →
      ∃ ip, m2 = insertKey addresses (XElem.findtext addr [Step.child "name"]) ip ∧
        ∀ n, n ∈ IPSet.toSet ip ↔
          ∃ sa ∈ XElem.findall addr [Step.child "address"], ∃ v,
            lookupKey addresses (XElem.findtext sa [Step.child "name"]) = some v ∧
            n ∈ IPSet.toSet v) ∧
    (Zone.from_xml c7zoneDoc = some c7zoneValue ∧
      lookupKey c7zoneValue.addresses (some "S") = some [⟨167772160, 24⟩, anyIP] ∧
      IPSet.toSet [(⟨167772160, 24⟩ : IP), anyIP] = fullSpace ∧
      lookupKey c7zoneValue.addresses (some "A") = some [⟨167772160, 24⟩] ∧
      IPSet.toSet [(⟨167772160, 24⟩ : IP)] = IP.toSet ⟨167772160, 24⟩) := by
  constructor
  · intro addresses addr m2 htag hpa
    obtain ⟨ip, hre, rfl⟩ := Zone.processAddr_shape addresses m2 addr hpa
    refine ⟨ip, rfl, ?_⟩
    unfold Zone.resolveEntry at hre
    rw [if_neg htag] at hre
    intro n
    rw [resolveSetMembers_toSet addresses _ [] ip hre n, IPSet.toSet_nil]
    simp
  · refine ⟨rfl, rfl, ?_, rfl, ?_⟩
    · ext n
      constructor
      · rintro ⟨r, hr, hn, -⟩
        exact hn
      · intro hn
        have hn2 : n < 2 ^ 32 := hn
        refine ⟨anyIP, by simp, hn2, ?_⟩
        show n / 2 ^ 32 = 0 / 2 ^ 32
        omega
    · ext n
      constructor
      · rintro ⟨r, hr, hn⟩
        rw [List.mem_singleton] at hr
        subst hr
        exact hn
      · intro hn
        exact ⟨⟨167772160, 24⟩, List.mem_singleton.mpr rfl, hn⟩

/-- Witness for C7: the general union property instantiated at the book
`c7book` (built-in `any` plus `A`) and the set element `c7setElt`. -/
theorem address_set_union_witness :
    c7setElt.tag ≠ "address" ∧
    Zone.processAddr c7book c7setElt = some c7book2 ∧
    (∃ ip, c7book2 = insertKey c7book (XElem.findtext c7setElt [Step.child "name"]) ip ∧
      ∀ n, n ∈ IPSet.toSet ip ↔
        ∃ sa ∈ XElem.findall c7setElt [Step.child "address"], ∃ v,
          lookupKey c7book (XElem.findtext sa [Step.child "name"]) = some v ∧
          n ∈ IPSet.toSet v) :=
  ⟨by decide, rfl, address_set_union.1 c7book c7setElt c7book2 (by decide) rfl⟩

/-- Counterexample to claim C8 as stated: `c8Root` parses successfully to
two policies of the same `(from_zone, to_zone)` pair with the same
sequence number 1, so sequence values are not pairwise distinct. -/
theorem policy_sequence_collision_counterexample :
    Firewall.parse_policies c8Root = some [c8pol1, c8pol2] ∧
    c8pol1.from_zone = c8pol2.from_zone ∧
    c8pol1.to_zone = c8pol2.to_zone ∧
    c8pol1.sequence = c8pol2.sequence ∧
    c8pol1 ≠ c8pol2 :=
  ⟨rfl, rfl, rfl, rfl, by decide⟩

/-- Claim C8 as amended: the parser does not enforce sequence uniqueness
within a zone pair: a document whose single context holds two entries with
equal sequence numbers parses successfully and emits both policies, in
document order. -/
theorem policy_sequence_collision_amended :
    Firewall.parse_policies c8Root = some [c8pol1, c8pol2] ∧
    c8pol1.name = some "p1" ∧ c8pol2.name = some "p2" ∧
    c8pol1.sequence = 1 ∧ c8pol2.sequence = 1 ∧
    c8pol1.from_zone = some "a" ∧ c8pol2.from_zone = some "a" ∧
    c8pol1.to_zone = some "b" ∧ c8pol2.to_zone = some "b" :=
  ⟨rfl, rfl, rfl, rfl, rfl, rfl, rfl, rfl, rfl⟩

/-- Claim C10: dict assignment makes the newest binding of a name the one
`lookupKey` sees, and in `c10Zone` the second `X` shadows the first, the
redefined `any` shadows the built-in full-space binding, and the later set
`S` is resolved against the redefined values. -/
theorem address_book_overwrite :
    (∀ (m : AddrMap) (k : Option String) (v : IPSet),
      lookupKey (insertKey m k v) k = some v) ∧
    (Zone.from_xml c10Zone).map Zone.addresses =
      some [ (some "S", [⟨167903232, 24⟩, ⟨167837696, 24⟩])
           , (some "any", [⟨167903232, 24⟩])
           , (some "X", [⟨167837696, 24⟩])
           , (some "X", [⟨167772160, 24⟩])
           , (some "any", anyIPSet) ] ∧
    ((Zone.from_xml c10Zone).bind (fun z => lookupKey z.addresses (some "X"))
      = some [⟨167837696, 24⟩]) ∧
    ((Zone.from_xml c10Zone).bind (fun z => lookupKey z.addresses (some "any"))
      = some [⟨167903232, 24⟩]) ∧
    ((Zone.from_xml c10Zone).bind (fun z => lookupKey z.addresses (some "S"))
      = some [⟨167903232, 24⟩, ⟨167837696, 24⟩]) := by
  refine ⟨?_, rfl, rfl, rfl, rfl⟩
  intro m k v
  simp [lookupKey, insertKey]
